import Mathlib

/-!
# Verification of the KinOS orchestration engine against its specification

This file gives a shallow embedding, in Lean 4, of the parts of the KinOS
source that the specification's claims talk about, and proves (or refutes)
each claim against that embedding.

Embedded components:
* `services/phase_service.py` — the phase state machine (`PhaseService`).
* `managers/agent_runner.py` — the runner pool (agent selection, per-agent
  exclusion, startup validation).
* `managers/aider_manager.py` — change detection from version-control
  snapshots, the three-phase cycle executor, command construction and the
  context-map loader.
* `services/map_service.py` — the project-map writer, modelled as a trace of
  filesystem operations.

Python `dict`s holding git snapshots are embedded as association lists
(`List (String × String)`); file contents read line-by-line are embedded as
`List String`; randomness is embedded by passing the random draw as an
explicit natural number argument; the wall clock is an explicit `Nat`.
-/

namespace Kinos

/-! ## Phase service (`services/phase_service.py`)

`ProjectPhase` is the two-valued enum of `phase_service.py`.  The class
constants `MODEL_TOKEN_LIMIT = 128_000`, `CONVERGENCE_THRESHOLD = 0.60` and
`EXPANSION_THRESHOLD = 0.50` give the derived values
`CONVERGENCE_TOKENS = int(128000 * 0.60)` and
`EXPANSION_TOKENS = int(128000 * 0.50)`.  In IEEE-754 double arithmetic
`128000 * 0.60` is exactly `76800.0` and `128000 * 0.50` is exactly
`64000.0`, so the truncations are `76800` and `64000`. -/

inductive ProjectPhase where
  | EXPANSION
  | CONVERGENCE
deriving DecidableEq, Repr

def MODEL_TOKEN_LIMIT : ℕ := 128000

/-- `int(128000 * 0.60)`; the double product is exactly `76800.0`. -/
def CONVERGENCE_TOKENS : ℕ := 76800

/-- `int(128000 * 0.50)`; the double product is exactly `64000.0`. -/
def EXPANSION_TOKENS : ℕ := 64000

/-- The mutable fields of a `PhaseService` instance.  `last_transition` is
the wall-clock timestamp of the latest phase transition, abstracted to `ℕ`. -/
structure PhaseState where
  current_phase : ProjectPhase
  last_transition : ℕ
  total_tokens : ℕ
deriving DecidableEq, Repr

/-- The initial state built by `PhaseService.__init__`. -/
def PhaseState.init (now : ℕ) : PhaseState :=
  { current_phase := ProjectPhase.EXPANSION, last_transition := now, total_tokens := 0 }

/-- `PhaseService.determine_phase`: stores the token count, computes the new
phase from the two thresholds, and updates `current_phase` and
`last_transition` only when the phase actually changed.  Returns the updated
state together with the returned phase (the log message’s text is not
modelled; the branch structure is). -/
def determine_phase (s : PhaseState) (total_tokens : ℕ) (now : ℕ) :
    PhaseState × ProjectPhase :=
  let s := { s with total_tokens := total_tokens }
  let old_phase := s.current_phase
  let new_phase :=
    if total_tokens > CONVERGENCE_TOKENS then ProjectPhase.CONVERGENCE
    else if total_tokens < EXPANSION_TOKENS then ProjectPhase.EXPANSION
    else s.current_phase
  if new_phase ≠ old_phase then
    ({ s with current_phase := new_phase, last_transition := now }, new_phase)
  else
    (s, new_phase)

/-- The record returned by `PhaseService.get_status_info`.  `usage_percent`
is a rational (`total_tokens / MODEL_TOKEN_LIMIT * 100`); `headroom` is an
integer because the subtraction can go negative. -/
structure StatusInfo where
  phase : ProjectPhase
  total_tokens : ℕ
  usage_percent : ℚ
  status_icon : String
  status_message : String
  headroom : ℤ
  last_transition : ℕ
deriving DecidableEq, Repr

/-- `PhaseService.get_status_info`. -/
def get_status_info (s : PhaseState) : StatusInfo :=
  let usage_percent : ℚ := ((s.total_tokens : ℚ) / (MODEL_TOKEN_LIMIT : ℚ)) * 100
  let (status_icon, status_message) :=
    if usage_percent < 55 then ("✓", "Below convergence threshold")
    else if usage_percent < 60 then ("⚠️", "Approaching convergence threshold")
    else ("🔴", "Convergence needed")
  let headroom : ℤ :=
    if s.current_phase = ProjectPhase.EXPANSION then
      (CONVERGENCE_TOKENS : ℤ) - (s.total_tokens : ℤ)
    else
      (EXPANSION_TOKENS : ℤ) - (s.total_tokens : ℤ)
  { phase := s.current_phase
    total_tokens := s.total_tokens
    usage_percent := usage_percent
    status_icon := status_icon
    status_message := status_message
    headroom := headroom
    last_transition := s.last_transition }

/-- `ProjectPhase(value)` — the enum constructor lookup used by
`force_phase`; `none` models the `ValueError` branch. -/
def projectPhaseOfString (v : String) : Option ProjectPhase :=
  if v = "EXPANSION" then some ProjectPhase.EXPANSION
  else if v = "CONVERGENCE" then some ProjectPhase.CONVERGENCE
  else none

/-- `str.upper`, embedded characterwise over the string's character list.
(The embedding uppercases ASCII letters, which is faithful on every input
whose uppercasing can possibly equal one of the two ASCII phase names.) -/
def pyUpper (s : String) : String := ⟨s.data.map Char.toUpper⟩

/-- `PhaseService.force_phase`: uppercases the argument, looks the enum
value up, and on success installs it (touching `last_transition` only when
the phase changed) returning `True`; on `ValueError` returns `False` with
the state untouched. -/
def force_phase (s : PhaseState) (phase : String) (now : ℕ) : PhaseState × Bool :=
  match projectPhaseOfString (pyUpper phase) with
  | some new_phase =>
      if new_phase ≠ s.current_phase then
        ({ s with current_phase := new_phase, last_transition := now }, true)
      else
        (s, true)
  | none => (s, false)

/-! ### Claims about the phase service -/

/-- **C1**: `determine_phase` returns CONVERGENCE when the observed total
exceeds `L × Cth = 128000 × 0.60 = 76800`, EXPANSION when it is below
`L × Eth = 128000 × 0.50 = 64000`, and otherwise returns the previous phase;
inside the hysteresis band `64000 ≤ t ≤ 76800` the stored phase after the
evaluation equals the stored phase before it. -/
theorem determine_phase_hysteresis (s : PhaseState) (t now : ℕ) :
    CONVERGENCE_TOKENS * 10 = MODEL_TOKEN_LIMIT * 6 ∧
    EXPANSION_TOKENS * 10 = MODEL_TOKEN_LIMIT * 5 ∧
    (t > CONVERGENCE_TOKENS →
      (determine_phase s t now).2 = ProjectPhase.CONVERGENCE) ∧
    (t < EXPANSION_TOKENS →
      (determine_phase s t now).2 = ProjectPhase.EXPANSION) ∧
    (EXPANSION_TOKENS ≤ t → t ≤ CONVERGENCE_TOKENS →
      (determine_phase s t now).2 = s.current_phase ∧
      ((determine_phase s t now).1.current_phase = s.current_phase ∧
        (determine_phase s t now).1.last_transition = s.last_transition)) := by
  refine ⟨rfl, rfl, ?_, ?_, ?_⟩
  · intro ht
    simp only [determine_phase, if_pos ht]
    split <;> rfl
  · intro ht
    have hnc : ¬ t > CONVERGENCE_TOKENS := by
      simp only [CONVERGENCE_TOKENS, EXPANSION_TOKENS] at *
      omega
    simp only [determine_phase, if_neg hnc, if_pos ht]
    split <;> rfl
  · intro h1 h2
    have hnc : ¬ t > CONVERGENCE_TOKENS := by omega
    have hne : ¬ t < EXPANSION_TOKENS := by omega
    simp only [determine_phase, if_neg hnc, if_neg hne, ne_eq, not_true_eq_false,
      if_neg, ite_self]
    exact ⟨rfl, rfl, rfl⟩

/-- Witness for C1 at the concrete band point `t = 70000` from the
EXPANSION state. -/
theorem determine_phase_hysteresis_witness :
    (determine_phase (PhaseState.init 0) 70000 5).2 = ProjectPhase.EXPANSION ∧
    (determine_phase (PhaseState.init 0) 70000 5).1.current_phase
      = ProjectPhase.EXPANSION ∧
    (determine_phase (PhaseState.init 0) 70000 5).1.last_transition = 0 := by
  have h := determine_phase_hysteresis (PhaseState.init 0) 70000 5
  obtain ⟨-, -, -, -, hband⟩ := h
  obtain ⟨hres, hphase, htime⟩ := hband (by decide) (by decide)
  exact ⟨hres, hphase, htime⟩

/-- **C9**: `force_phase` is error-atomic: an input whose uppercasing is
neither valid phase name yields `False` and leaves the whole state (in
particular `current_phase` and `last_transition`) unchanged; a valid input
yields `True` and installs the requested phase. -/
theorem force_phase_error_atomic (s : PhaseState) (p : String) (now : ℕ) :
    (projectPhaseOfString (pyUpper p) = none →
      force_phase s p now = (s, false)) ∧
    (∀ np, projectPhaseOfString (pyUpper p) = some np →
      (force_phase s p now).2 = true ∧
      (force_phase s p now).1.current_phase = np) := by
  constructor
  · intro hnone
    simp only [force_phase, hnone]
  · intro np hsome
    simp only [force_phase, hsome]
    by_cases h : np = s.current_phase
    · subst h
      simp
    · simp [h]

/-- Witness for C9: the invalid input `"neither"` leaves a CONVERGENCE
state untouched and returns `False`; the valid input `"convergence"` (lower
case) returns `True` and installs CONVERGENCE. -/
theorem force_phase_error_atomic_witness :
    force_phase ⟨ProjectPhase.CONVERGENCE, 7, 500⟩ "neither" 9
      = (⟨ProjectPhase.CONVERGENCE, 7, 500⟩, false) ∧
    (force_phase (PhaseState.init 0) "convergence" 9).2 = true ∧
    (force_phase (PhaseState.init 0) "convergence" 9).1.current_phase
      = ProjectPhase.CONVERGENCE := by
  refine ⟨?_, ?_⟩
  · exact (force_phase_error_atomic ⟨ProjectPhase.CONVERGENCE, 7, 500⟩ "neither" 9).1
      (by decide)
  · exact (force_phase_error_atomic (PhaseState.init 0) "convergence" 9).2
      ProjectPhase.CONVERGENCE (by decide)

/-- **C10**: the headroom reported by `get_status_info` is computed against
the phase-dependent threshold — `CONVERGENCE_TOKENS` in EXPANSION,
`EXPANSION_TOKENS` in CONVERGENCE — and in the CONVERGENCE phase it is
`≤ 0` as soon as the stored total token count reaches `EXPANSION_TOKENS`. -/
theorem get_status_info_headroom (s : PhaseState) :
    (s.current_phase = ProjectPhase.EXPANSION →
      (get_status_info s).headroom = (CONVERGENCE_TOKENS : ℤ) - (s.total_tokens : ℤ)) ∧
    (s.current_phase = ProjectPhase.CONVERGENCE →
      (get_status_info s).headroom = (EXPANSION_TOKENS : ℤ) - (s.total_tokens : ℤ)) ∧
    (s.current_phase = ProjectPhase.CONVERGENCE → EXPANSION_TOKENS ≤ s.total_tokens →
      (get_status_info s).headroom ≤ 0) := by
  refine ⟨?_, ?_, ?_⟩
  · intro h
    simp [get_status_info, h]
  · intro h
    simp [get_status_info, h]
  · intro h htok
    have hh : (get_status_info s).headroom
        = (EXPANSION_TOKENS : ℤ) - (s.total_tokens : ℤ) := by
      simp [get_status_info, h]
    rw [hh]
    simp only [EXPANSION_TOKENS] at htok ⊢
    omega

/-- Witness for C10 at the concrete state (CONVERGENCE, 70000 tokens):
the reported headroom is `64000 - 70000 = -6000 ≤ 0`. -/
theorem get_status_info_headroom_witness :
    (get_status_info ⟨ProjectPhase.CONVERGENCE, 3, 70000⟩).headroom
      = (64000 : ℤ) - 70000 ∧
    (get_status_info ⟨ProjectPhase.CONVERGENCE, 3, 70000⟩).headroom ≤ 0 := by
  have h := get_status_info_headroom ⟨ProjectPhase.CONVERGENCE, 3, 70000⟩
  exact ⟨h.2.1 rfl, h.2.2 rfl (by decide)⟩

/-! ## Change detection (`managers/aider_manager.py`)

`_get_git_file_states` returns a Python dict mapping each tracked path to
its index hash; a snapshot is embedded as an association list
`List (String × String)` whose keys are unique (`(·.map Prod.fst).Nodup`).
`_get_modified_files(before, after)` iterates over the items of the *after*
dict and reports a path when `before.get(path)` (None when absent) differs
from the after hash. -/

/-- `AiderManager._get_modified_files`: for every `(path, after_hash)` item
of the after snapshot, report `path` when `before.get(path) != after_hash`
(a `None` from `get` also compares unequal). -/
def get_modified_files (before after : List (String × String)) : List String :=
  (after.filter fun ph => before.lookup ph.1 != some ph.2).map Prod.fst

/-- On duplicate-free keys, `List.lookup` agrees with membership. -/
theorem lookup_eq_some_iff_mem (l : List (String × String)) (p h : String)
    (hnd : (l.map Prod.fst).Nodup) :
    l.lookup p = some h ↔ (p, h) ∈ l := by
  induction l with
  | nil => simp [List.lookup]
  | cons x t ih =>
      obtain ⟨hx, hnt⟩ := List.nodup_cons.mp hnd
      by_cases hpx : p = x.1
      · subst hpx
        simp only [List.lookup, beq_self_eq_true, List.mem_cons]
        constructor
        · intro hsome
          left
          cases x
          simp at hsome
          simp [hsome]
        · intro hmem
          rcases hmem with hmem | hmem
          · cases x; simp_all
          · exact absurd (List.mem_map_of_mem Prod.fst hmem) hx
      · have hbeq : (p == x.1) = false := beq_eq_false_iff_ne.mpr hpx
        simp only [List.lookup, hbeq, List.mem_cons]
        rw [ih hnt]
        constructor
        · intro hmem; exact Or.inr hmem
        · intro hmem
          rcases hmem with hmem | hmem
          · exact absurd (congrArg Prod.fst hmem) hpx
          · exact hmem

/-- **C3** (counterexample): a deleted path — present in the before
snapshot, absent from the after snapshot — has differing hashes between the
two snapshots (`some "h1"` vs `none`) yet is not reported by
`_get_modified_files`, because the code iterates only over the after
snapshot's items. -/
theorem get_modified_files_misses_deleted :
    List.lookup "a.md" [("a.md", "h1")]
      ≠ List.lookup "a.md" ([] : List (String × String)) ∧
    "a.md" ∉ get_modified_files [("a.md", "h1")] [] := by
  constructor
  · simp [List.lookup]
  · simp [get_modified_files]

/-- **C3** (amended): the reported modified set equals
`{p ∈ dom(after) | before.get(p) ≠ after[p]}` — every path *present in the
after snapshot* whose hash differs from its before hash (including paths
newly added) is reported, and no other path is; paths deleted between the
snapshots are never reported. -/
theorem get_modified_files_spec (before after : List (String × String))
    (p : String) (hnd : (after.map Prod.fst).Nodup) :
    p ∈ get_modified_files before after ↔
      ∃ h, after.lookup p = some h ∧ before.lookup p ≠ some h := by
  simp only [get_modified_files, List.mem_map, List.mem_filter]
  constructor
  · rintro ⟨⟨q, h⟩, ⟨hmem, hneq⟩, rfl⟩
    refine ⟨h, ?_, ?_⟩
    · exact (lookup_eq_some_iff_mem after q h hnd).mpr hmem
    · simpa using hneq
  · rintro ⟨h, hlook, hneq⟩
    refine ⟨(p, h), ⟨(lookup_eq_some_iff_mem after p h hnd).mp hlook, ?_⟩, rfl⟩
    simpa using hneq

/-- Witness for C3's amended theorem at a concrete pair of snapshots:
`a.md` changed hash, `c.md` kept its hash, `b.md` is new; the reported set
is exactly `[a.md, b.md]`. -/
theorem get_modified_files_spec_witness :
    ("a.md" ∈ get_modified_files [("a.md", "h1"), ("c.md", "h3")]
        [("a.md", "h2"), ("c.md", "h3"), ("b.md", "h4")] ↔
      ∃ h, List.lookup "a.md"
            [("a.md", "h2"), ("c.md", "h3"), ("b.md", "h4")] = some h ∧
          List.lookup "a.md" [("a.md", "h1"), ("c.md", "h3")] ≠ some h) ∧
    get_modified_files [("a.md", "h1"), ("c.md", "h3")]
        [("a.md", "h2"), ("c.md", "h3"), ("b.md", "h4")] = ["a.md", "b.md"] := by
  constructor
  · exact get_modified_files_spec [("a.md", "h1"), ("c.md", "h3")]
      [("a.md", "h2"), ("c.md", "h3"), ("b.md", "h4")] "a.md" (by decide)
  · rfl

/-! ## Three-phase cycle execution (`managers/aider_manager.py`)

`_execute_aider` runs three ordered phases (Production, Role-specific,
Final Check) through `_run_aider_phase`.  The editor subprocess is external:
its behaviour in one phase is embedded as a `PhaseOutcome` — the process
return code plus the git snapshot that `_get_git_file_states` would observe
after the phase.  `_run_aider_phase` raises `CalledProcessError` as soon as
the return code is non-zero — *before* taking the final snapshot — and
otherwise reports the phase's modified files via `_get_modified_files`. -/

/-- The externally determined behaviour of one editor-subprocess phase:
its exit code and the git snapshot left behind on completion. -/
structure PhaseOutcome where
  returncode : ℕ
  gitAfter : List (String × String)
deriving DecidableEq, Repr

/-- `AiderManager._run_aider_phase` for one phase: on a non-zero return
code the phase raises (`Except.error` carries the code); otherwise it
returns the modified files (from `_get_modified_files` over the snapshots
bracketing the phase) together with the final snapshot. -/
def run_aider_phase (gitBefore : List (String × String)) (ph : PhaseOutcome) :
    Except ℕ (List String × List (String × String)) :=
  if ph.returncode ≠ 0 then Except.error ph.returncode
  else Except.ok (get_modified_files gitBefore ph.gitAfter, ph.gitAfter)

/-- `AiderManager._execute_aider`: run the Production, Role-specific and
Final-Check phases in order.  The first component counts how many editor
subprocesses were actually launched; the second is the outcome — the error
code of the phase whose exception propagated, or the deduplicated union
`all_changes` of the three phases' modified sets.  The `except` clause of
the source logs and re-raises, so an error outcome aborts the cycle. -/
def execute_aider (git0 : List (String × String))
    (p1 p2 p3 : PhaseOutcome) : ℕ × Except ℕ (List String) :=
  match run_aider_phase git0 p1 with
  | Except.error c => (1, Except.error c)
  | Except.ok (f1, g1) =>
    match run_aider_phase g1 p2 with
    | Except.error c => (2, Except.error c)
    | Except.ok (f2, g2) =>
      match run_aider_phase g2 p3 with
      | Except.error c => (3, Except.error c)
      | Except.ok (f3, _) => (3, Except.ok (f1 ++ f2 ++ f3).dedup)

/-- **C4** (counterexample): phase 1 exits 0 modifying `foo.md`, phase 2
exits 1, phase 3 would exit 0 modifying `bar.md`.  The code launches only
two phases — phase 3 is never executed — and the cycle resolves to the
propagated error, not to any union of modified sets. -/
theorem execute_aider_aborts_on_phase_failure :
    execute_aider [("foo.md", "h0"), ("bar.md", "h0")]
        ⟨0, [("foo.md", "h1"), ("bar.md", "h0")]⟩
        ⟨1, [("foo.md", "h1"), ("bar.md", "h0")]⟩
        ⟨0, [("foo.md", "h1"), ("bar.md", "h2")]⟩
      = (2, Except.error 1) ∧
    (2 : ℕ) ≠ 3 ∧
    ∀ fs : List String,
      (execute_aider [("foo.md", "h0"), ("bar.md", "h0")]
        ⟨0, [("foo.md", "h1"), ("bar.md", "h0")]⟩
        ⟨1, [("foo.md", "h1"), ("bar.md", "h0")]⟩
        ⟨0, [("foo.md", "h1"), ("bar.md", "h2")]⟩).2 ≠ Except.ok fs := by
  have hfull : execute_aider [("foo.md", "h0"), ("bar.md", "h0")]
      ⟨0, [("foo.md", "h1"), ("bar.md", "h0")]⟩
      ⟨1, [("foo.md", "h1"), ("bar.md", "h0")]⟩
      ⟨0, [("foo.md", "h1"), ("bar.md", "h2")]⟩ = (2, Except.error 1) := rfl
  refine ⟨hfull, by decide, ?_⟩
  intro fs h
  rw [hfull] at h
  exact Except.noConfusion h

/-- **C4** (amended): a phase that exits non-zero aborts the cycle — the
phases after it are *not* executed, the error propagates as the cycle's
outcome, and the union of modified sets is computed only when all three
phases exit zero. -/
theorem execute_aider_fail_fast (git0 : List (String × String))
    (p1 p2 p3 : PhaseOutcome) :
    (p1.returncode ≠ 0 →
      execute_aider git0 p1 p2 p3 = (1, Except.error p1.returncode)) ∧
    (p1.returncode = 0 → p2.returncode ≠ 0 →
      execute_aider git0 p1 p2 p3 = (2, Except.error p2.returncode)) ∧
    (p1.returncode = 0 → p2.returncode = 0 → p3.returncode ≠ 0 →
      execute_aider git0 p1 p2 p3 = (3, Except.error p3.returncode)) ∧
    (p1.returncode = 0 → p2.returncode = 0 → p3.returncode = 0 →
      execute_aider git0 p1 p2 p3 =
        (3, Except.ok ((get_modified_files git0 p1.gitAfter
          ++ get_modified_files p1.gitAfter p2.gitAfter
          ++ get_modified_files p2.gitAfter p3.gitAfter).dedup))) := by
  refine ⟨?_, ?_, ?_, ?_⟩
  · intro h1
    simp [execute_aider, run_aider_phase, h1]
  · intro h1 h2
    simp [execute_aider, run_aider_phase, h1, h2]
  · intro h1 h2 h3
    simp [execute_aider, run_aider_phase, h1, h2, h3]
  · intro h1 h2 h3
    simp [execute_aider, run_aider_phase, h1, h2, h3]

/-- Witness for C4's amended theorem at the counterexample's concrete
input: phase 2 failing with code 1 stops the cycle after two launches. -/
theorem execute_aider_fail_fast_witness :
    execute_aider [("foo.md", "h0"), ("bar.md", "h0")]
        ⟨0, [("foo.md", "h1"), ("bar.md", "h0")]⟩
        ⟨1, [("foo.md", "h1"), ("bar.md", "h0")]⟩
        ⟨0, [("foo.md", "h1"), ("bar.md", "h2")]⟩
      = (2, Except.error 1) :=
  (execute_aider_fail_fast [("foo.md", "h0"), ("bar.md", "h0")]
      ⟨0, [("foo.md", "h1"), ("bar.md", "h0")]⟩
      ⟨1, [("foo.md", "h1"), ("bar.md", "h0")]⟩
      ⟨0, [("foo.md", "h1"), ("bar.md", "h2")]⟩).2.1 rfl (by decide)

/-! ## Project-map writing (`services/map_service.py`)

`MapService._write_map_file` is
`with open(self.map_file, 'w', encoding='utf-8') as f: f.write(content)`
with `self.map_file = "map.md"`; `generate_map` formats the map content and
returns `_write_map_file(map_content)`.  The write is embedded as the trace
of filesystem operations the `with` block performs: a truncating open of
the target, a write of the content, and a close.  A small trace semantics
(`applyTrace`) gives the observable file contents at every intermediate
point. -/

/-- A filesystem operation observable during a write. -/
inductive FsOp where
  | openTrunc (path : String)
  | writeData (path : String) (data : String)
  | closeFile (path : String)
  | rename (src dst : String)
deriving DecidableEq, Repr

/-- The trace of filesystem operations performed by
`MapService._write_map_file(content)` (and hence by `generate_map`, which
delegates its write to it): a direct truncating open of `map.md`, the write
of the new content, and the close. -/
def write_map_file_trace (content : String) : List FsOp :=
  [FsOp.openTrunc "map.md", FsOp.writeData "map.md" content,
   FsOp.closeFile "map.md"]

/-- Whether an operation is a rename. -/
def FsOp.isRename : FsOp → Bool
  | FsOp.rename _ _ => true
  | _ => false

/-- Whether an operation writes directly to (truncates or appends data to)
the given path. -/
def FsOp.writesDirectly : FsOp → String → Bool
  | FsOp.openTrunc q, p => q == p
  | FsOp.writeData q _, p => q == p
  | _, _ => false

/-- The specification's notion of an atomic overwrite of `target` (written
from the spec's words, for comparison with the code's trace): all direct
writes go to a sibling temporary file, never to `target` itself, and the
new content reaches `target` through a rename. -/
def specAtomicReplace (tr : List FsOp) (target : String) : Prop :=
  (∃ op ∈ tr, op.isRename = true) ∧
  ∀ op ∈ tr, op.writesDirectly target = false

/-- Effect of one filesystem operation on the map from path to content. -/
def applyOp (fs : String → String) : FsOp → String → String
  | FsOp.openTrunc p => fun q => if q = p then "" else fs q
  | FsOp.writeData p d => fun q => if q = p then fs q ++ d else fs q
  | FsOp.closeFile _ => fs
  | FsOp.rename src dst =>
      fun q => if q = dst then fs src else if q = src then "" else fs q

/-- Effect of a whole trace, first operation first. -/
def applyTrace (fs : String → String) : List FsOp → String → String
  | [] => fs
  | op :: ops => applyTrace (applyOp fs op) ops

/-- **C5** (counterexample): the trace of `_write_map_file` is not an
atomic temp-file-and-rename overwrite of `map.md` — it contains no rename
at all and opens `map.md` itself for a truncating write. -/
theorem write_map_file_not_atomic :
    ¬ specAtomicReplace (write_map_file_trace "# Project Map") "map.md" := by
  intro h
  have hop := h.2 (FsOp.openTrunc "map.md") (by decide)
  simp [FsOp.writesDirectly] at hop

/-- **C5** (amended): `_write_map_file` overwrites `map.md` by a direct
truncating write: no rename is performed, the final content is the new
content, and — whenever old and new content are non-empty — there is an
intermediate point of the trace (after the truncating open) at which
`map.md` holds neither the old nor the new content.  The overwrite is
therefore not atomic in the temp-file-and-rename sense. -/
theorem write_map_file_truncates_in_place (fs0 : String → String)
    (content : String) (hold : fs0 "map.md" ≠ "") (hnew : content ≠ "") :
    (∀ op ∈ write_map_file_trace content, op.isRename = false) ∧
    applyTrace fs0 (write_map_file_trace content) "map.md" = content ∧
    ∃ k, k < (write_map_file_trace content).length ∧
      applyTrace fs0 ((write_map_file_trace content).take k) "map.md"
        ≠ fs0 "map.md" ∧
      applyTrace fs0 ((write_map_file_trace content).take k) "map.md"
        ≠ content := by
  refine ⟨?_, ?_, 1, ?_, ?_, ?_⟩
  · intro op hop
    simp only [write_map_file_trace, List.mem_cons, List.mem_singleton] at hop
    rcases hop with rfl | rfl | rfl | h
    · rfl
    · rfl
    · rfl
    · exact absurd h (List.not_mem_nil op)
  · simp [write_map_file_trace, applyTrace, applyOp]
  · simp [write_map_file_trace]
  · simpa [write_map_file_trace, applyTrace, applyOp] using fun h => hold h.symm
  · simpa [write_map_file_trace, applyTrace, applyOp] using fun h => hnew h.symm

/-- Witness for C5's amended theorem: a concrete initial filesystem whose
`map.md` holds `"old"`, overwritten with `"# Project Map"`. -/
theorem write_map_file_truncates_in_place_witness :
    applyTrace (fun _ => "old") (write_map_file_trace "# Project Map") "map.md"
      = "# Project Map" ∧
    ∃ k, k < (write_map_file_trace "# Project Map").length ∧
      applyTrace (fun _ => "old")
          ((write_map_file_trace "# Project Map").take k) "map.md" ≠ "old" ∧
      applyTrace (fun _ => "old")
          ((write_map_file_trace "# Project Map").take k) "map.md"
        ≠ "# Project Map" := by
  have h := write_map_file_truncates_in_place (fun _ => "old") "# Project Map"
    (by decide) (by decide)
  exact ⟨h.2.1, h.2.2⟩

/-! ## Agent selection in the runner pool (`managers/agent_runner.py`)

`_get_available_agents` filters the fixed agent-type list by existence of
the role-prompt file `.aider.agent.<type>.md`; the filesystem is embedded
as the list of existing file paths.  `_select_available_agent` draws with
`random.choice` from the available agents not in `self._running_agents` and
adds the chosen one to the running set, all under `self._agent_lock`.
`random.choice(seq)` returns `seq[i]` for a uniformly random index
`i < len(seq)`; the randomness is embedded as an explicit draw `r : ℕ`
reduced modulo the list length. -/

/-- The fixed closed list of agent types in `agent_runner.py`. -/
def agent_types : List String :=
  ["specification", "management", "redaction", "evaluation", "deduplication",
   "chroniqueur", "redondance", "production", "chercheur", "integration"]

/-- The role-prompt path `.aider.agent.<type>.md` of an agent type. -/
def agentPromptFile (t : String) : String := ".aider.agent." ++ t ++ ".md"

/-- `AgentRunner._get_available_agents`: the agent types whose role-prompt
file exists. -/
def get_available_agents (existingFiles : List String) : List String :=
  agent_types.filter fun t => existingFiles.contains (agentPromptFile t)

/-- The `unused_agents` list computed inside `_select_available_agent`:
available agents that are not in the running set. -/
def unusedAgents (existingFiles running : List String) : List String :=
  (get_available_agents existingFiles).filter fun a => !running.contains a

/-- `AgentRunner._select_available_agent`: under the pool lock, compute the
unused agents, return `None` when there are none, otherwise pick
`unused_agents[r mod len]` (the embedding of `random.choice`) and add it to
the running set, returning the chosen agent with the updated set. -/
def select_available_agent (existingFiles running : List String) (r : ℕ) :
    Option (String × List String) :=
  let unused := unusedAgents existingFiles running
  if unused = [] then none
  else
    let chosen := unused.getD (r % unused.length) ""
    some (chosen, chosen :: running)

/-- How many of the equiprobable draws `r < |unused|` make
`_select_available_agent` choose agent `a`. -/
def selectCount (existingFiles running : List String) (a : String) : ℕ :=
  ((List.range (unusedAgents existingFiles running).length).filter
    fun r => decide (select_available_agent existingFiles running r
      = some (a, a :: running))).length

/-- The probability that `_select_available_agent` chooses `a`, as the
fraction of equiprobable draws that choose `a`. -/
def selectProb (existingFiles running : List String) (a : String) : ℚ :=
  (selectCount existingFiles running a : ℚ)
    / ((unusedAgents existingFiles running).length : ℚ)

/-- The weighted random draw described by the specification (written from
the spec's words, for comparison with the code): agent `a` is chosen from
the pool with probability proportional to its configured weight `w a`. -/
def specWeightedDrawProb (pool : List String) (w : String → ℚ) (a : String) : ℚ :=
  if a ∈ pool then w a / (pool.map w).sum else 0

/-- Counting the draws `r < |l|` that hit `a` through `getD` counts the
occurrences of `a` in `l`. -/
theorem length_filter_range_getD (l : List String) (a d : String) :
    ((List.range l.length).filter fun r => l.getD r d == a).length
      = l.count a := by
  induction l with
  | nil => simp
  | cons x t ih =>
      rw [List.length_cons, List.range_succ_eq_map, List.filter_cons]
      have hcomp : ((List.range t.length).map Nat.succ).filter
            (fun r => (x :: t).getD r d == a)
          = ((List.range t.length).filter fun r => t.getD r d == a).map
              Nat.succ := by
        rw [List.filter_map]
        rfl
      by_cases hxa : x = a
      · subst hxa
        simp only [List.getD_cons_zero, beq_self_eq_true, if_pos]
        rw [List.length_cons, hcomp, List.length_map, ih, List.count_cons]
        simp
      · have hb : ((x : String) == a) = false := beq_eq_false_iff_ne.mpr hxa
        simp only [List.getD_cons_zero, hb, Bool.false_eq_true, if_neg,
          not_false_eq_true]
        rw [hcomp, List.length_map, ih, List.count_cons]
        simp [hb]

/-- The unused-agents list is duplicate-free (the fixed agent-type list is,
and both availability and exclusion are filters of it). -/
theorem unusedAgents_nodup (existingFiles running : List String) :
    (unusedAgents existingFiles running).Nodup := by
  have h : agent_types.Nodup := by decide
  exact (h.filter _).filter _

/-- Membership in the unused-agents list means: available (role-prompt file
exists) and not currently running. -/
theorem mem_unusedAgents (existingFiles running : List String) (a : String) :
    a ∈ unusedAgents existingFiles running ↔
      a ∈ get_available_agents existingFiles ∧ a ∉ running := by
  simp [unusedAgents, List.mem_filter]

/-- A successful selection returns an unused agent and pushes exactly that
agent onto the running set. -/
theorem select_available_agent_eq_some (existingFiles running : List String)
    (r : ℕ) (c : String) (rs : List String)
    (hsel : select_available_agent existingFiles running r = some (c, rs)) :
    c ∈ unusedAgents existingFiles running ∧ rs = c :: running := by
  simp only [select_available_agent] at hsel
  by_cases hne : unusedAgents existingFiles running = []
  · rw [if_pos hne] at hsel
    exact absurd hsel (by simp)
  · rw [if_neg hne] at hsel
    have hlen : 0 < (unusedAgents existingFiles running).length :=
      List.length_pos.mpr hne
    have hrlt : r % (unusedAgents existingFiles running).length
        < (unusedAgents existingFiles running).length :=
      Nat.mod_lt _ hlen
    have hmem : (unusedAgents existingFiles running).getD
        (r % (unusedAgents existingFiles running).length) ""
        ∈ unusedAgents existingFiles running := by
      rw [List.getD_eq_getElem _ _ hrlt]
      exact List.getElem_mem hrlt
    have hpair := Option.some.inj hsel
    have hc : (unusedAgents existingFiles running).getD
        (r % (unusedAgents existingFiles running).length) "" = c :=
      congrArg Prod.fst hpair
    have hrs : rs = c :: running := by
      rw [← hc]
      exact (congrArg Prod.snd hpair).symm
    rw [hc] at hmem
    exact ⟨hmem, hrs⟩

/-- **C6** (counterexample): with exactly the role-prompt files of
`specification` and `management` present and no agent running, the code
chooses each of the two with probability `1/2`; the specification's
weighted draw with the configured weights `0.4` and `0.6` (weights not all
zero, so its uniform fallback does not apply) would choose `management`
with probability `3/5 ≠ 1/2`.  The selection is not the weighted draw. -/
theorem select_available_agent_not_weighted :
    selectProb [".aider.agent.specification.md", ".aider.agent.management.md"]
        [] "management" = 1 / 2 ∧
    specWeightedDrawProb
        (unusedAgents
          [".aider.agent.specification.md", ".aider.agent.management.md"] [])
        (fun a => if a = "specification" then 2/5
          else if a = "management" then 3/5 else 1/2)
        "management" = 3 / 5 ∧
    ((3 : ℚ)/5 ≠ 0) ∧
    (1 : ℚ)/2 ≠ 3/5 := by
  have hu : unusedAgents
      [".aider.agent.specification.md", ".aider.agent.management.md"] []
      = ["specification", "management"] := by decide
  refine ⟨?_, ?_, by norm_num, by norm_num⟩
  · have hc : selectCount
        [".aider.agent.specification.md", ".aider.agent.management.md"] []
        "management" = 1 := by decide
    rw [selectProb, hc, hu]
    norm_num
  · rw [hu, specWeightedDrawProb]
    norm_num [show ("management" : String) ≠ "specification" from by decide]

/-- **C6** (amended): `_select_available_agent` selects *uniformly* at
random among the available agents that are not currently running — each
unused agent is chosen by exactly one of the `|unused|` equiprobable draws,
so configured per-phase weights play no role — and every successful
selection returns an available, non-running agent after adding it to the
running set. -/
theorem select_available_agent_uniform (existingFiles running : List String)
    (a : String) (ha : a ∈ unusedAgents existingFiles running) :
    selectCount existingFiles running a = 1 ∧
    (∀ r c rs, select_available_agent existingFiles running r = some (c, rs) →
      c ∈ get_available_agents existingFiles ∧ c ∉ running ∧
        rs = c :: running) := by
  constructor
  · have hne : unusedAgents existingFiles running ≠ [] :=
      List.ne_nil_of_mem ha
    have hcong : ∀ r ∈ List.range (unusedAgents existingFiles running).length,
        (decide (select_available_agent existingFiles running r
          = some (a, a :: running)))
        = ((unusedAgents existingFiles running).getD r "" == a) := by
      intro r hr
      have hrlt : r < (unusedAgents existingFiles running).length :=
        List.mem_range.mp hr
      have hmod : r % (unusedAgents existingFiles running).length = r :=
        Nat.mod_eq_of_lt hrlt
      rw [beq_eq_decide]
      apply decide_eq_decide.mpr
      simp only [select_available_agent, if_neg hne, hmod]
      constructor
      · intro h
        exact congrArg Prod.fst (Option.some.inj h)
      · intro h
        rw [h]
    rw [selectCount, List.filter_congr hcong, length_filter_range_getD]
    exact List.count_eq_one_of_mem (unusedAgents_nodup existingFiles running) ha
  · intro r c rs hsel
    obtain ⟨hcu, hrs⟩ :=
      select_available_agent_eq_some existingFiles running r c rs hsel
    obtain ⟨havail, hrun⟩ := (mem_unusedAgents existingFiles running c).mp hcu
    exact ⟨havail, hrun, hrs⟩

/-- Witness for C6's amended theorem: with both role-prompt files present
and nothing running, `management` is chosen by exactly one of the two
equiprobable draws. -/
theorem select_available_agent_uniform_witness :
    "management" ∈ unusedAgents
        [".aider.agent.specification.md", ".aider.agent.management.md"] [] ∧
    selectCount [".aider.agent.specification.md",
        ".aider.agent.management.md"] [] "management" = 1 :=
  ⟨by decide,
    (select_available_agent_uniform
      [".aider.agent.specification.md", ".aider.agent.management.md"] []
      "management" (by decide)).1⟩

/-! ## Runner-pool exclusion (`managers/agent_runner.py`)

The pool's concurrency discipline is embedded as a labelled transition
system.  A `PoolState` holds `self._running_agents` (`running`) and the
collection of active cycles, identified by their agent (`active`).  A
cycle becomes active exactly when `_select_available_agent` succeeds — the
selection and the insertion into the running set happen atomically under
`self._agent_lock` — and stops being active when `_run_single_agent_cycle`
reaches its `finally` block, which removes the agent from the running set
whether the cycle completed or failed.  A failed draw (`None`) changes no
state and needs no transition. -/

/-- Pool state: the running-agent set and the agents of the active
cycles (a multiset, represented as a list). -/
structure PoolState where
  running : List String
  active : List String
deriving DecidableEq, Repr

/-- One transition of the runner pool, parameterised by the existing
role-prompt files: either a cycle starts by a successful
`_select_available_agent` draw (atomically installing the returned running
set), or an active cycle finishes and its `finally` block erases its agent
from the running set. -/
inductive PoolStep (existingFiles : List String) : PoolState → PoolState → Prop where
  | select (s : PoolState) (r : ℕ) (c : String) (rs : List String) :
      select_available_agent existingFiles s.running r = some (c, rs) →
      PoolStep existingFiles s ⟨rs, c :: s.active⟩
  | finish (s : PoolState) (a : String) :
      a ∈ s.active →
      PoolStep existingFiles s ⟨s.running.erase a, s.active.erase a⟩

/-- The pool states reachable from the initial state of
`AgentRunner.__init__` (empty running set, no active cycle). -/
inductive PoolReachable (existingFiles : List String) : PoolState → Prop where
  | init : PoolReachable existingFiles ⟨[], []⟩
  | step (s s' : PoolState) : PoolReachable existingFiles s →
      PoolStep existingFiles s s' → PoolReachable existingFiles s'

/-- The pool invariant: every agent has at most one active cycle, and every
agent with an active cycle is in the running set. -/
def pool_inv (s : PoolState) : Prop :=
  ∀ a : String, s.active.count a ≤ 1 ∧ (a ∈ s.active → a ∈ s.running)

/-- The pool invariant is preserved by every pool transition. -/
theorem pool_inv_step (existingFiles : List String) (s s' : PoolState)
    (hinv : pool_inv s) (hstep : PoolStep existingFiles s s') :
    pool_inv s' := by
  cases hstep with
  | select r c rs hsel =>
      obtain ⟨hcu, hrs⟩ :=
        select_available_agent_eq_some existingFiles s.running r c rs hsel
      obtain ⟨-, hnotrun⟩ := (mem_unusedAgents existingFiles s.running c).mp hcu
      have hcnotactive : c ∉ s.active := fun hc => hnotrun ((hinv c).2 hc)
      intro a
      constructor
      · by_cases hac : a = c
        · subst hac
          rw [List.count_cons_self,
            List.count_eq_zero.mpr hcnotactive]
        · rw [List.count_cons_of_ne hac]
          exact (hinv a).1
      · intro hmem
        rw [hrs]
        rcases List.mem_cons.mp hmem with rfl | hmem
        · exact List.mem_cons_self a s.running
        · exact List.mem_cons_of_mem c ((hinv a).2 hmem)
  | finish a0 hmem0 =>
      intro a
      constructor
      · exact le_trans ((s.active.erase_sublist a0).count_le a) (hinv a).1
      · intro hmem
        by_cases haa : a = a0
        · subst haa
          exfalso
          have hpos : 0 < (s.active.erase a).count a :=
            List.count_pos_iff.mpr hmem
          rw [List.count_erase_self] at hpos
          have := (hinv a).1
          omega
        · have hact : a ∈ s.active := List.mem_of_mem_erase hmem
          exact (List.mem_erase_of_ne haa).mpr ((hinv a).2 hact)

/-- The pool invariant holds in every reachable pool state. -/
theorem pool_inv_reachable (existingFiles : List String) (s : PoolState)
    (h : PoolReachable existingFiles s) : pool_inv s := by
  induction h with
  | init =>
      intro a
      exact ⟨by simp, by simp⟩
  | step s s' _ hstep ih =>
      exact pool_inv_step existingFiles s s' ih hstep

/-- **C2**: in every reachable state of the runner pool, each agent has at
most one active cycle — selection draws only from agents outside the
running set and atomically adds the chosen agent to it, and every finishing
cycle (completed or failed) erases its agent from the running set. -/
theorem per_agent_exclusion (existingFiles : List String) (s : PoolState)
    (h : PoolReachable existingFiles s) (a : String) :
    s.active.count a ≤ 1 :=
  (pool_inv_reachable existingFiles s h a).1

/-- Witness for C2: the concrete reachable state obtained by one successful
selection of `production` (its role-prompt file being the only one
present) has one active `production` cycle. -/
theorem per_agent_exclusion_witness :
    (PoolState.mk ["production"] ["production"]).active.count "production"
      ≤ 1 :=
  per_agent_exclusion [".aider.agent.production.md"]
    ⟨["production"], ["production"]⟩
    (PoolReachable.step ⟨[], []⟩ ⟨["production"], ["production"]⟩
      PoolReachable.init
      (PoolStep.select ⟨[], []⟩ 0 "production" ["production"] (by decide)))
    "production"

/-! ## Editor command construction and the context map
(`managers/aider_manager.py`)

`_build_aider_command(objective, agent, context_files, model)` assembles
the editor subprocess's argument list, deriving the agent name from the
agent file path by `os.path.basename(...).replace('.aider.agent.', '')
.replace('.md', '')`.  The live cycle path `run_aider →
_run_aider_with_encoding` calls it with `[]` as `context_files`;
`_load_context_map` — which parses the `- path` entries of the context map
and creates the missing ones as empty files — has no caller.  The string
helpers are embedded characterwise so that they evaluate inside the
kernel. -/

/-- `str.replace` with the scan fuelled by the string length: at each
position either the (non-empty) pattern matches and is replaced, the scan
resuming after the replacement, or one character is kept.  (For an empty
pattern the original string is returned; the source only uses non-empty
patterns.) -/
def replaceFuel : ℕ → List Char → List Char → List Char → List Char
  | _, [], _, _ => []
  | 0, s, _, _ => s
  | fuel+1, c :: s, pat, rep =>
      if pat ≠ [] ∧ (c :: s).take pat.length = pat then
        rep ++ replaceFuel fuel ((c :: s).drop pat.length) pat rep
      else
        c :: replaceFuel fuel s pat rep

/-- `str.replace`, over the string's character list. -/
def pyReplace (s pat rep : String) : String :=
  String.mk (replaceFuel s.data.length s.data pat.data rep.data)

/-- `os.path.basename` for forward-slash paths: the suffix after the last
separator. -/
def basenameChars : List Char → List Char → List Char
  | [], acc => acc.reverse
  | c :: rest, acc =>
      if c = '/' then basenameChars rest [] else basenameChars rest (c :: acc)

/-- `os.path.basename`, over the string's character list. -/
def pyBasename (s : String) : String := String.mk (basenameChars s.data [])

/-- The agent-name extraction of `_build_aider_command`. -/
def extract_agent_name (agent_filepath : String) : String :=
  pyReplace (pyReplace (pyBasename agent_filepath) ".aider.agent." "") ".md" ""

/-- `AiderManager._build_aider_command`: the full argument list — base
flags, per-agent history files, one `--file` per context file, the
`todolist.md` `--file`, the agent prompt as `--read`, and the objective as
the `--message`.  (The objective file's content is passed in directly; the
`PYTHONPATH` mutation is an environment effect outside the argument
list.) -/
def build_aider_command (objective_content agent_filepath : String)
    (context_files : List String) (model : String) : List String :=
  let agent_name := extract_agent_name agent_filepath
  ["python", "-m", "aider.main",
   "--model", model,
   "--edit-format", "diff",
   "--yes-always",
   "--no-pretty",
   "--no-fancy-input",
   "--encoding", "utf-8",
   "--chat-history-file", ".aider.history." ++ agent_name ++ ".md",
   "--restore-chat-history",
   "--input-history-file", ".aider.input." ++ agent_name ++ ".md"]
  ++ context_files.flatMap (fun f => ["--file", f])
  ++ ["--file", "todolist.md"]
  ++ ["--read", agent_filepath]
  ++ ["--message", "# Objective\n" ++ objective_content]

/-- The command actually launched by the live cycle path
(`run_aider → _run_aider_with_encoding`): `_build_aider_command` is called
with the *empty* context-file list. -/
def run_aider_with_encoding_cmd (objective_content agent_filepath model : String) :
    List String :=
  build_aider_command objective_content agent_filepath [] model

/-- `str.strip`, over the string's character list. -/
def pyStrip (s : String) : String :=
  String.mk
    (((s.data.dropWhile Char.isWhitespace).reverse.dropWhile
      Char.isWhitespace).reverse)

/-- The entries `_load_context_map` parses from the context-map file read
line by line: for every line whose stripped form starts with `- `, the
stripped line without that marker. -/
def load_context_map_entries (lines : List String) : List String :=
  lines.filterMap fun line =>
    if (pyStrip line).data.take 2 = ['-', ' '] then
      some (String.mk ((pyStrip line).data.drop 2))
    else none

/-- `AiderManager._load_context_map` over a filesystem embedded as the
list of existing paths: every parsed entry is collected, and any entry
that does not yet exist is created as an empty file.  Returns the
collected context files together with the existing paths afterwards. -/
def load_context_map (existingFiles : List String) (lines : List String) :
    List String × List String :=
  (load_context_map_entries lines).foldl
    (fun acc e =>
      if acc.2.contains e then (acc.1 ++ [e], acc.2)
      else (acc.1 ++ [e], acc.2 ++ [e]))
    ([], existingFiles)

/-- **C7**: the context map listing `sub/new.md` (a file that does not
exist) parses to that entry, and `_load_context_map` would create it and
return it — but `_load_context_map` has no caller: the live path builds
the editor command with an empty context-file list, so the launched
command carries exactly one `--file` argument (`todolist.md`) and never
mentions `sub/new.md`.  The claimed invariant fails on the code as wired,
while the mechanism the claim describes exists, unused, in
`_load_context_map`. -/
theorem context_map_entries_not_passed :
    load_context_map_entries ["- sub/new.md"] = ["sub/new.md"] ∧
    (load_context_map ["todolist.md"] ["- sub/new.md"]).1 = ["sub/new.md"] ∧
    (load_context_map ["todolist.md"] ["- sub/new.md"]).2
      = ["todolist.md", "sub/new.md"] ∧
    "sub/new.md" ∉ run_aider_with_encoding_cmd "objective text"
        ".aider.agent.production.md" "gpt-4o-mini" ∧
    (run_aider_with_encoding_cmd "objective text"
        ".aider.agent.production.md" "gpt-4o-mini").count "--file" = 1 ∧
    "todolist.md" ∈ run_aider_with_encoding_cmd "objective text"
        ".aider.agent.production.md" "gpt-4o-mini" := by
  refine ⟨by decide, by decide, by decide, by decide, by decide, by decide⟩

/-! ## Startup validation (`managers/agent_runner.py`)

`AgentRunner.run` first checks the mission file; when it is absent it logs
an error block naming the expected `.aider.mission.md` file and raises
`SystemExit(1)` (which the surrounding `except Exception` clause does not
catch), before any agent generation and before any cycle task is created.
Otherwise it generates the missing role-prompt files if any, and spawns up
to `agent_count` cycle tasks. -/

/-- The externally observable actions of `AgentRunner.run`. -/
inductive RunEvent where
  | generateAgents
  | startCycle
deriving DecidableEq, Repr

/-- How `AgentRunner.run` terminates. -/
inductive RunResult where
  | systemExit (code : ℕ)
  | valueError (msg : String)
  | mainLoop
deriving DecidableEq, Repr

/-- The outcome of `AgentRunner.run`: how it left the startup sequence,
the actions it performed, and the log lines of the failure block. -/
structure RunOutcome where
  result : RunResult
  events : List RunEvent
  messages : List String
deriving DecidableEq, Repr

/-- The log lines of the missing-mission failure block. -/
def mission_missing_messages : List String :=
  ["❌ Fichier de mission introuvable!",
   "\n📋 Pour démarrer KinOS, vous devez :",
   "   1. Soit créer un fichier '.aider.mission.md' dans le dossier courant",
   "   2. Soit spécifier le chemin vers votre fichier de mission avec --mission",
   "\n💡 Exemples :",
   "   kin run agents --generate",
   "   kin run agents --generate --mission chemin/vers/ma_mission.md",
   "\n📝 Le fichier de mission doit contenir la description de votre projet."]

/-- `AgentRunner._agents_exist`: all agent types when regeneration is
forced, otherwise those whose role-prompt file is missing. -/
def agents_exist (force_regenerate : Bool) (existingFiles : List String) :
    List String :=
  if force_regenerate then agent_types
  else agent_types.filter fun t => !existingFiles.contains (agentPromptFile t)

/-- `AgentRunner.run` up to the steady-state loop: validate the mission
file (raising `SystemExit(1)` with the failure block when absent),
generate missing role-prompt files if any (embedded as all prompt files
coming into existence), and create the initial pool of up to `agent_count`
cycle tasks. -/
def runner_run (missionExists : Bool) (generate_agents : Bool)
    (agent_count : ℕ) (existingFiles : List String) : RunOutcome :=
  if !missionExists then
    { result := RunResult.systemExit 1, events := [],
      messages := mission_missing_messages }
  else
    let missing := agents_exist generate_agents existingFiles
    let genEvents : List RunEvent :=
      if missing ≠ [] then [RunEvent.generateAgents] else []
    let files' :=
      if missing ≠ [] then existingFiles ++ agent_types.map agentPromptFile
      else existingFiles
    let available := get_available_agents files'
    if available = [] then
      { result := RunResult.valueError "No agents available to run",
        events := genEvents, messages := [] }
    else
      { result := RunResult.mainLoop,
        events := genEvents ++
          List.replicate (min agent_count available.length) RunEvent.startCycle,
        messages := [] }

/-- **C8**: when the mission-description file is absent, startup raises
`SystemExit(1)` — exit code 1 — after logging a message that names the
expected `.aider.mission.md` file, with no role-prompt generation and no
cycle started. -/
theorem run_missing_mission_fails_fast (generate_agents : Bool)
    (agent_count : ℕ) (existingFiles : List String) :
    (runner_run false generate_agents agent_count existingFiles).result
      = RunResult.systemExit 1 ∧
    (runner_run false generate_agents agent_count existingFiles).events
      = [] ∧
    ∃ m ∈ (runner_run false generate_agents agent_count existingFiles).messages,
      List.IsInfix ".aider.mission.md".data m.data := by
  refine ⟨rfl, rfl,
    "   1. Soit créer un fichier '.aider.mission.md' dans le dossier courant",
    ?_, ?_⟩
  · show "   1. Soit créer un fichier '.aider.mission.md' dans le dossier courant"
      ∈ mission_missing_messages
    decide
  · decide

end Kinos
